import Mathlib

/-!
Shallow embedding of
`src/tencentcloud/data_source_tc_sqlserver_basic_instances.go`
(function `dataSourceTencentCloudSqlserverBasicInstanceRead`).

The handler is modelled as a pure function from
  * a `ResourceConfig` — the results the Terraform SDK's `d.Get` / `d.GetOk`
    would return for the configured arguments (the SDK itself is an external
    black box per the spec's non-goals, so its lookup results are inputs), and
  * an `Env` — the responses of the opaque collaborators
    (`SqlserverService.DescribeSqlserverInstances`,
    `TagService.DescribeResourceTags`, `d.Set`, `writeToFile`)
to a `ReadOutcome`: the ordered trace of service calls made, the final
Terraform state written (resource ID and `instance_list`), and the Go return
value.  A nil-pointer dereference (`*v.PayMode`, `*v.InstanceId` when the SDK
pointer is nil) is modelled as the explicit outcome `GoResult.crash`.
-/

/-- Go `error` values, abstracted to strings (only identity matters). -/
abbrev Err := String

/-- The tag map returned by `TagService.DescribeResourceTags`. -/
abbrev Tags := List (String × String)

/-- Provider constant `COMMON_PAYTYPE_PREPAID` (declared outside `src/`;
only its value as a fixed string distinct from the postpaid constant is
relied on). -/
def COMMON_PAYTYPE_PREPAID : String := "PREPAID"

/-- Provider constant `COMMON_PAYTYPE_POSTPAID` (declared outside `src/`). -/
def COMMON_PAYTYPE_POSTPAID : String := "POSTPAID_BY_HOUR"

/-- One element of the list returned by `DescribeSqlserverInstances`
(SDK type `sqlserver.DBInstance`); every field used by the handler is a Go
pointer, modelled as `Option`. -/
structure SqlserverInstance where
  InstanceId : Option String
  Name : Option String
  ProjectId : Option Int
  Storage : Option Int
  Memory : Option Int
  Zone : Option String
  CreateTime : Option String
  UniqVpcId : Option String
  UniqSubnetId : Option String
  Version : Option String
  Vip : Option String
  Vport : Option Int
  UsedStorage : Option Int
  Status : Option Int
  Cpu : Option Int
  PayMode : Option Int
deriving DecidableEq

/-- The generic key-value `listItem` built per instance; the key set is fixed
in the source, so the map is modelled as a structure with one field per key. -/
structure ListItem where
  id : Option String
  name : Option String
  project_id : Option Int
  storage : Option Int
  memory : Option Int
  availability_zone : Option String
  create_time : Option String
  vpc_id : Option String
  subnet_id : Option String
  engine_version : Option String
  vip : Option String
  vport : Option Int
  used_storage : Option Int
  status : Option Int
  cpu : Option Int
  charge_type : String
  tags : Tags
deriving DecidableEq

/-- Configured arguments, as seen through the SDK:
`id` is the `d.Get("id").(string)` result; the other fields are the
`d.GetOk` results (`none` when the SDK reports the key as not set). -/
structure ResourceConfig where
  id : String
  project_id : Option Int
  vpc_id : Option String
  subnet_id : Option String
  result_output_file : Option String
deriving DecidableEq

/-- One external call made by the handler, with the arguments it passed. -/
inductive Call where
  | describeInstances (id : String) (projectId : Int) (vpcId : String)
      (subnetId : String) (instanceType : Int)
  | describeTags (serviceType : String) (resourceKind : String)
      (region : String) (resourceId : String)
  | writeFile (path : String) (content : List ListItem)
deriving DecidableEq

/-- Responses of the opaque collaborators for one run. -/
structure Env where
  listResult : Except Err (List SqlserverInstance)
  tagResult : String → Except Err Tags
  region : String
  setError : Option Err
  writeResult : Except Err Unit

/-- What the Go function's control flow ends with. -/
inductive GoResult where
  | ok
  | err (e : Err)
  | crash
deriving DecidableEq

/-- Final Terraform state fragments the handler writes. -/
structure ReadState where
  resourceId : Option String
  instance_list : Option (List ListItem)
deriving DecidableEq

/-- Trace, state and return value of one run of the read handler. -/
structure ReadOutcome where
  calls : List Call
  state : ReadState
  ret : GoResult
deriving DecidableEq

/-- Modelled from the spec: `helper.DataResourceIdsHash` is not under `src/`;
the spec says the handler "computes a deterministic synthetic ID from the
result set".  Modelled as a (deterministic, total) function of the ID
sequence. -/
def DataResourceIdsHash (ids : List String) : String :=
  String.join (ids.map (fun i => i ++ "-"))

/-- The `listItem` built for instance `v` after dereferencing
`*v.PayMode = pm`, with tag result `tagList` (source lines 195–222). -/
def mkListItem (v : SqlserverInstance) (pm : Int) (tagList : Tags) : ListItem :=
  { id := v.InstanceId
    name := v.Name
    project_id := v.ProjectId
    storage := v.Storage
    memory := v.Memory
    availability_zone := v.Zone
    create_time := v.CreateTime
    vpc_id := v.UniqVpcId
    subnet_id := v.UniqSubnetId
    engine_version := v.Version
    vip := v.Vip
    vport := v.Vport
    used_storage := v.UsedStorage
    status := v.Status
    cpu := v.Cpu
    charge_type := if pm = 1 then COMMON_PAYTYPE_PREPAID else COMMON_PAYTYPE_POSTPAID
    tags := tagList }

/-- Result of the flattening loop (source lines 194–225): the tag calls made,
and either the accumulated `list` and `ids`, an error returned from a tag
call, or a nil-pointer crash. -/
inductive LoopResult where
  | ok (calls : List Call) (list : List ListItem) (ids : List String)
  | err (calls : List Call) (e : Err)
  | crash (calls : List Call)
deriving DecidableEq

/-- The calls recorded in a `LoopResult`, whichever way it ended. -/
def LoopResult.calls : LoopResult → List Call
  | .ok cs _ _ => cs
  | .err cs _ => cs
  | .crash cs => cs

/-- The `for _, v := range instanceList` loop, source lines 194–225.
Per instance: `*v.PayMode` is dereferenced first (line 212), then
`*v.InstanceId` (line 217, evaluated before the tag call), then
`tagService.DescribeResourceTags(ctx, "sqlserver", "instance",
tcClient.Region, *v.InstanceId)`; a tag error is returned immediately
(line 219); otherwise the item and id are appended. -/
def processInstances (env : Env) : List SqlserverInstance → LoopResult
  | [] => .ok [] [] []
  | v :: rest =>
    match v.PayMode with
    | none => .crash []
    | some pm =>
      match v.InstanceId with
      | none => .crash []
      | some iid =>
        let call := Call.describeTags "sqlserver" "instance" env.region iid
        match env.tagResult iid with
        | .error e => .err [call] e
        | .ok tagList =>
          let item := mkListItem v pm tagList
          match processInstances env rest with
          | .ok cs l ids => .ok (call :: cs) (item :: l) (iid :: ids)
          | .err cs e => .err (call :: cs) e
          | .crash cs => .crash (call :: cs)

/-- The single listing call (source line 187):
`service.DescribeSqlserverInstances(ctx, id, projectId, vpcId, subnetId, 1)`
with `id = d.Get("id").(string)`, `projectId = -1` unless `GetOk` yields a
value, and the string filters defaulting to `""` (lines 173–186). -/
def listingCall (cfg : ResourceConfig) : Call :=
  .describeInstances cfg.id (cfg.project_id.getD (-1)) (cfg.vpc_id.getD "")
    (cfg.subnet_id.getD "") 1

/-- Source lines 227–237, after the loop succeeded with `list` and `ids`:
`d.SetId(helper.DataResourceIdsHash(ids))`, then `d.Set("instance_list",
list)` (its error returned), then the `result_output_file` check
`ok && output.(string) != ""` and the optional `writeToFile`. -/
def finishRead (cfg : ResourceConfig) (env : Env) (list : List ListItem)
    (ids : List String) : ReadOutcome :=
  let rid := DataResourceIdsHash ids
  match env.setError with
  | some e => ⟨[], ⟨some rid, none⟩, .err e⟩
  | none =>
    match cfg.result_output_file with
    | some output =>
      if output = "" then ⟨[], ⟨some rid, some list⟩, .ok⟩
      else
        match env.writeResult with
        | .error e => ⟨[Call.writeFile output list], ⟨some rid, some list⟩, .err e⟩
        | .ok _ => ⟨[Call.writeFile output list], ⟨some rid, some list⟩, .ok⟩
    | none => ⟨[], ⟨some rid, some list⟩, .ok⟩

/-- The read handler, source lines 164–239. -/
def dataSourceTencentCloudSqlserverBasicInstanceRead (cfg : ResourceConfig)
    (env : Env) : ReadOutcome :=
  match env.listResult with
  | .error e => ⟨[listingCall cfg], ⟨none, none⟩, .err e⟩
  | .ok instanceList =>
    match processInstances env instanceList with
    | .crash cs => ⟨listingCall cfg :: cs, ⟨none, none⟩, .crash⟩
    | .err cs e => ⟨listingCall cfg :: cs, ⟨none, none⟩, .err e⟩
    | .ok cs list ids =>
      let fin := finishRead cfg env list ids
      ⟨listingCall cfg :: (cs ++ fin.calls), fin.state, fin.ret⟩

/-- Classifier: is this a `DescribeSqlserverInstances` call? -/
def Call.isListCall : Call → Bool
  | .describeInstances .. => true
  | _ => false

/-- Classifier: is this a `DescribeResourceTags` call? -/
def Call.isTagCall : Call → Bool
  | .describeTags .. => true
  | _ => false

/-- Classifier: is this a `writeToFile` call? -/
def Call.isWriteCall : Call → Bool
  | .writeFile .. => true
  | _ => false

/-- The `instanceType` argument of a listing call. -/
def Call.instanceTypeArg : Call → Option Int
  | .describeInstances _ _ _ _ t => some t
  | _ => none

/- ## Shared lemmas about the flattening loop and the epilogue -/

/-- When the loop succeeds, `list` and `ids` have one entry per instance, the
tag calls are exactly one per id in order, and each entry is the `mkListItem`
of the corresponding instance at its (non-nil) `PayMode` with the tag map the
tag service returned for its (non-nil) `InstanceId`. -/
theorem processInstances_ok_spec (env : Env) :
    ∀ (instances : List SqlserverInstance) (cs : List Call) (l : List ListItem)
      (ids : List String), processInstances env instances = .ok cs l ids →
    l.length = instances.length ∧ ids.length = instances.length ∧
    cs = ids.map (fun iid => Call.describeTags "sqlserver" "instance" env.region iid) ∧
    ∀ i (h : i < instances.length),
      ∃ (h1 : i < l.length) (h2 : i < ids.length) (pm : Int) (tagList : Tags),
        (instances.get ⟨i, h⟩).InstanceId = some (ids.get ⟨i, h2⟩) ∧
        (instances.get ⟨i, h⟩).PayMode = some pm ∧
        env.tagResult (ids.get ⟨i, h2⟩) = .ok tagList ∧
        l.get ⟨i, h1⟩ = mkListItem (instances.get ⟨i, h⟩) pm tagList := by
  intro instances
  induction instances with
  | nil =>
    intro cs l ids h
    simp only [processInstances, LoopResult.ok.injEq] at h
    obtain ⟨hc, hl, hi⟩ := h
    subst hc; subst hl; subst hi
    refine ⟨rfl, rfl, rfl, ?_⟩
    intro i h
    exact absurd h (by simp)
  | cons v rest ih =>
    intro cs l ids h
    simp only [processInstances] at h
    cases hpm : v.PayMode with
    | none =>
      simp only [hpm] at h
      exact absurd h (by simp)
    | some pm =>
      simp only [hpm] at h
      cases hiid : v.InstanceId with
      | none =>
        simp only [hiid] at h
        exact absurd h (by simp)
      | some iid =>
        simp only [hiid] at h
        cases htag : env.tagResult iid with
        | error e =>
          simp only [htag] at h
          exact absurd h (by simp)
        | ok tagList =>
          simp only [htag] at h
          cases hrec : processInstances env rest with
          | err cs0 e =>
            simp only [hrec] at h
            exact absurd h (by simp)
          | crash cs0 =>
            simp only [hrec] at h
            exact absurd h (by simp)
          | ok cs0 l0 ids0 =>
            simp only [hrec] at h
            simp only [LoopResult.ok.injEq] at h
            obtain ⟨hc, hl, hi⟩ := h
            subst hc; subst hl; subst hi
            obtain ⟨ihl, ihi, ihc, ihp⟩ := ih cs0 l0 ids0 hrec
            refine ⟨by simp [ihl], by simp [ihi], by simp [ihc], ?_⟩
            intro i h
            cases i with
            | zero =>
              refine ⟨by simp, by simp, pm, tagList, ?_, ?_, ?_, ?_⟩
              · simpa using hiid
              · simpa using hpm
              · simpa using htag
              · simp
            | succ j =>
              have hj : j < rest.length := by simpa using h
              obtain ⟨h1, h2, pm0, t0, e1, e2, e3, e4⟩ := ihp j hj
              refine ⟨by simpa using h1, by simpa using h2, pm0, t0, ?_, ?_, ?_, ?_⟩
              · simpa using e1
              · simpa using e2
              · simpa using e3
              · simpa using e4

/-- The Go return value corresponding to `writeToFile`'s result. -/
def writerRet (env : Env) : GoResult :=
  match env.writeResult with
  | .ok _ => .ok
  | .error e => .err e

/-- The epilogue always sets the resource ID to the hash of `ids`. -/
theorem finishRead_resourceId (cfg : ResourceConfig) (env : Env)
    (list : List ListItem) (ids : List String) :
    (finishRead cfg env list ids).state.resourceId = some (DataResourceIdsHash ids) := by
  unfold finishRead
  cases hs : env.setError with
  | some e => rfl
  | none =>
    cases ho : cfg.result_output_file with
    | none => rfl
    | some output =>
      by_cases he : output = ""
      · simp only [if_pos he]
      · simp only [if_neg he]
        cases hw : env.writeResult with
        | error e => rfl
        | ok u => rfl

/-- If the epilogue left `instance_list` set, it is the flattened `list` and
`d.Set` did not fail. -/
theorem finishRead_instance_list_inv (cfg : ResourceConfig) (env : Env)
    (list : List ListItem) (ids : List String) (l : List ListItem)
    (h : (finishRead cfg env list ids).state.instance_list = some l) :
    l = list ∧ env.setError = none := by
  unfold finishRead at h
  cases hs : env.setError with
  | some e => simp only [hs] at h; exact absurd h (by simp)
  | none =>
    simp only [hs] at h
    refine ⟨?_, rfl⟩
    cases ho : cfg.result_output_file with
    | none => simp only [ho] at h; exact (Option.some.inj h).symm
    | some output =>
      simp only [ho] at h
      by_cases he : output = ""
      · simp only [if_pos he] at h; exact (Option.some.inj h).symm
      · simp only [if_neg he] at h
        cases hw : env.writeResult with
        | error e => simp only [hw] at h; exact (Option.some.inj h).symm
        | ok u => simp only [hw] at h; exact (Option.some.inj h).symm

/-- When `d.Set` succeeds, the epilogue stores the flattened `list`. -/
theorem finishRead_instance_list_of_setOk (cfg : ResourceConfig) (env : Env)
    (list : List ListItem) (ids : List String) (hset : env.setError = none) :
    (finishRead cfg env list ids).state.instance_list = some list := by
  unfold finishRead
  simp only [hset]
  cases ho : cfg.result_output_file with
  | none => rfl
  | some output =>
    by_cases he : output = ""
    · simp only [if_pos he]
    · simp only [if_neg he]
      cases hw : env.writeResult with
      | error e => rfl
      | ok u => rfl

/-- Any call made by the epilogue is a `writeToFile` of the flattened `list`
to the configured non-empty `result_output_file`, after a successful
`d.Set`. -/
theorem finishRead_calls_inv (cfg : ResourceConfig) (env : Env)
    (list : List ListItem) (ids : List String) (c : Call)
    (h : c ∈ (finishRead cfg env list ids).calls) :
    ∃ p, c = .writeFile p list ∧ cfg.result_output_file = some p ∧ p ≠ "" ∧
      env.setError = none := by
  unfold finishRead at h
  cases hs : env.setError with
  | some e => simp only [hs] at h; simp at h
  | none =>
    simp only [hs] at h
    cases ho : cfg.result_output_file with
    | none => simp only [ho] at h; simp at h
    | some output =>
      simp only [ho] at h
      by_cases he : output = ""
      · simp only [if_pos he] at h; simp at h
      · simp only [if_neg he] at h
        cases hw : env.writeResult with
        | error e =>
          simp only [hw] at h
          simp only [List.mem_singleton] at h
          exact ⟨output, h, rfl, he, rfl⟩
        | ok u =>
          simp only [hw] at h
          simp only [List.mem_singleton] at h
          exact ⟨output, h, rfl, he, rfl⟩

/-- With a successful `d.Set` and a configured non-empty output file, the
epilogue makes exactly the one write call and returns the writer's result. -/
theorem finishRead_write (cfg : ResourceConfig) (env : Env)
    (list : List ListItem) (ids : List String) (p : String)
    (hset : env.setError = none) (hp : cfg.result_output_file = some p)
    (hne : p ≠ "") :
    (finishRead cfg env list ids).calls = [Call.writeFile p list] ∧
    (finishRead cfg env list ids).ret = writerRet env := by
  unfold finishRead
  simp only [hset, hp, if_neg hne]
  cases hw : env.writeResult with
  | error e => constructor <;> simp [writerRet, hw]
  | ok u => constructor <;> simp [writerRet, hw]

/-- With a successful `d.Set` and no (or empty) output file, the epilogue
makes no call and the handler returns nil. -/
theorem finishRead_nowrite (cfg : ResourceConfig) (env : Env)
    (list : List ListItem) (ids : List String) (hset : env.setError = none)
    (hp : cfg.result_output_file = none ∨ cfg.result_output_file = some "") :
    (finishRead cfg env list ids).calls = [] ∧
    (finishRead cfg env list ids).ret = .ok := by
  unfold finishRead
  simp only [hset]
  rcases hp with hp | hp
  · simp [hp]
  · simp [hp]

/-- Shape of the run when the listing call fails (source lines 188–190). -/
theorem read_eq_of_listError (cfg : ResourceConfig) (env : Env) (e : Err)
    (h : env.listResult = .error e) :
    dataSourceTencentCloudSqlserverBasicInstanceRead cfg env =
      ⟨[listingCall cfg], ⟨none, none⟩, .err e⟩ := by
  unfold dataSourceTencentCloudSqlserverBasicInstanceRead
  simp only [h]

/-- Shape of the run when a tag call fails (source lines 218–220). -/
theorem read_eq_of_loopErr (cfg : ResourceConfig) (env : Env)
    (instances : List SqlserverInstance) (cs : List Call) (e : Err)
    (h1 : env.listResult = .ok instances)
    (h2 : processInstances env instances = .err cs e) :
    dataSourceTencentCloudSqlserverBasicInstanceRead cfg env =
      ⟨listingCall cfg :: cs, ⟨none, none⟩, .err e⟩ := by
  unfold dataSourceTencentCloudSqlserverBasicInstanceRead
  simp only [h1, h2]

/-- Shape of the run when a nil pointer is dereferenced in the loop. -/
theorem read_eq_of_loopCrash (cfg : ResourceConfig) (env : Env)
    (instances : List SqlserverInstance) (cs : List Call)
    (h1 : env.listResult = .ok instances)
    (h2 : processInstances env instances = .crash cs) :
    dataSourceTencentCloudSqlserverBasicInstanceRead cfg env =
      ⟨listingCall cfg :: cs, ⟨none, none⟩, .crash⟩ := by
  unfold dataSourceTencentCloudSqlserverBasicInstanceRead
  simp only [h1, h2]

/-- Shape of the run when the loop succeeds: the epilogue decides state,
trailing calls and return value. -/
theorem read_eq_of_loopOk (cfg : ResourceConfig) (env : Env)
    (instances : List SqlserverInstance) (cs : List Call)
    (list : List ListItem) (ids : List String)
    (h1 : env.listResult = .ok instances)
    (h2 : processInstances env instances = .ok cs list ids) :
    dataSourceTencentCloudSqlserverBasicInstanceRead cfg env =
      ⟨listingCall cfg :: (cs ++ (finishRead cfg env list ids).calls),
        (finishRead cfg env list ids).state, (finishRead cfg env list ids).ret⟩ := by
  unfold dataSourceTencentCloudSqlserverBasicInstanceRead
  simp only [h1, h2]

/-- Every call recorded by the loop is a tag call. -/
theorem processInstances_calls_tagOnly (env : Env) :
    ∀ (instances : List SqlserverInstance) (c : Call),
      c ∈ (processInstances env instances).calls → c.isTagCall = true := by
  intro instances
  induction instances with
  | nil => intro c hc; simp [processInstances, LoopResult.calls] at hc
  | cons v rest ih =>
    intro c hc
    simp only [processInstances] at hc
    cases hpm : v.PayMode with
    | none => simp only [hpm, LoopResult.calls] at hc; simp at hc
    | some pm =>
      simp only [hpm] at hc
      cases hiid : v.InstanceId with
      | none => simp only [hiid, LoopResult.calls] at hc; simp at hc
      | some iid =>
        simp only [hiid] at hc
        cases htag : env.tagResult iid with
        | error e =>
          simp only [htag, LoopResult.calls, List.mem_singleton] at hc
          subst hc; rfl
        | ok tagList =>
          simp only [htag] at hc
          cases hrec : processInstances env rest with
          | ok cs l ids =>
            simp only [hrec, LoopResult.calls, List.mem_cons] at hc
            rcases hc with hc | hc
            · subst hc; rfl
            · exact ih c (by simpa [hrec, LoopResult.calls] using hc)
          | err cs e =>
            simp only [hrec, LoopResult.calls, List.mem_cons] at hc
            rcases hc with hc | hc
            · subst hc; rfl
            · exact ih c (by simpa [hrec, LoopResult.calls] using hc)
          | crash cs =>
            simp only [hrec, LoopResult.calls, List.mem_cons] at hc
            rcases hc with hc | hc
            · subst hc; rfl
            · exact ih c (by simpa [hrec, LoopResult.calls] using hc)

/-- The epilogue never produces a nil-dereference outcome. -/
theorem finishRead_ret_not_crash (cfg : ResourceConfig) (env : Env)
    (list : List ListItem) (ids : List String) :
    (finishRead cfg env list ids).ret ≠ .crash := by
  unfold finishRead
  cases hs : env.setError with
  | some e => simp
  | none =>
    cases ho : cfg.result_output_file with
    | none => simp
    | some output =>
      by_cases he : output = ""
      · simp only [if_pos he]; simp
      · simp only [if_neg he]
        cases hw : env.writeResult with
        | error e => simp
        | ok u => simp

/-- The first call of every run is the one listing call. -/
theorem read_calls_head (cfg : ResourceConfig) (env : Env) :
    (dataSourceTencentCloudSqlserverBasicInstanceRead cfg env).calls.head? =
      some (listingCall cfg) := by
  unfold dataSourceTencentCloudSqlserverBasicInstanceRead
  cases h : env.listResult with
  | error e => rfl
  | ok instances => cases h2 : processInstances env instances <;> simp only [h2] <;> rfl

/-- Decomposition of every run's trace: the listing call first, then only
tag calls and write calls. -/
theorem read_calls_decomp (cfg : ResourceConfig) (env : Env) :
    ∃ rest, (dataSourceTencentCloudSqlserverBasicInstanceRead cfg env).calls =
      listingCall cfg :: rest ∧
      ∀ c ∈ rest, c.isTagCall = true ∨ c.isWriteCall = true := by
  cases h : env.listResult with
  | error e =>
    refine ⟨[], ?_, by simp⟩
    rw [read_eq_of_listError cfg env e h]
  | ok instances =>
    cases h2 : processInstances env instances with
    | err cs e =>
      refine ⟨cs, ?_, ?_⟩
      · rw [read_eq_of_loopErr cfg env instances cs e h h2]
      · intro c hc
        exact Or.inl (processInstances_calls_tagOnly env instances c
          (by rw [h2]; exact hc))
    | crash cs =>
      refine ⟨cs, ?_, ?_⟩
      · rw [read_eq_of_loopCrash cfg env instances cs h h2]
      · intro c hc
        exact Or.inl (processInstances_calls_tagOnly env instances c
          (by rw [h2]; exact hc))
    | ok cs list ids =>
      refine ⟨cs ++ (finishRead cfg env list ids).calls, ?_, ?_⟩
      · rw [read_eq_of_loopOk cfg env instances cs list ids h h2]
      · intro c hc
        rcases List.mem_append.mp hc with hc | hc
        · exact Or.inl (processInstances_calls_tagOnly env instances c
            (by rw [h2]; exact hc))
        · obtain ⟨p, hcw, -, -, -⟩ := finishRead_calls_inv cfg env list ids c hc
          subst hcw
          exact Or.inr rfl

/-- Whenever a resource ID was set, the loop succeeded and the ID is the
hash of the collected instance IDs. -/
theorem read_resourceId_inv (cfg : ResourceConfig) (env : Env) (r : String)
    (h : (dataSourceTencentCloudSqlserverBasicInstanceRead cfg env).state.resourceId = some r) :
    ∃ instances cs list ids, env.listResult = .ok instances ∧
      processInstances env instances = .ok cs list ids ∧
      r = DataResourceIdsHash ids := by
  cases hl : env.listResult with
  | error e =>
    rw [read_eq_of_listError cfg env e hl] at h
    exact absurd h (by simp)
  | ok instances =>
    cases h2 : processInstances env instances with
    | err cs e =>
      rw [read_eq_of_loopErr cfg env instances cs e hl h2] at h
      exact absurd h (by simp)
    | crash cs =>
      rw [read_eq_of_loopCrash cfg env instances cs hl h2] at h
      exact absurd h (by simp)
    | ok cs list ids =>
      rw [read_eq_of_loopOk cfg env instances cs list ids hl h2] at h
      rw [finishRead_resourceId cfg env list ids] at h
      refine ⟨instances, cs, list, ids, rfl, h2, (Option.some.inj h).symm⟩

/-- Whenever `instance_list` was stored, the loop succeeded with that very
list and `d.Set` did not fail. -/
theorem read_instance_list_inv (cfg : ResourceConfig) (env : Env)
    (instances : List SqlserverInstance) (l : List ListItem)
    (hl : env.listResult = .ok instances)
    (h : (dataSourceTencentCloudSqlserverBasicInstanceRead cfg env).state.instance_list = some l) :
    ∃ cs ids, processInstances env instances = .ok cs l ids ∧
      env.setError = none := by
  cases h2 : processInstances env instances with
  | err cs e =>
    rw [read_eq_of_loopErr cfg env instances cs e hl h2] at h
    exact absurd h (by simp)
  | crash cs =>
    rw [read_eq_of_loopCrash cfg env instances cs hl h2] at h
    exact absurd h (by simp)
  | ok cs list ids =>
    rw [read_eq_of_loopOk cfg env instances cs list ids hl h2] at h
    obtain ⟨hll, hset⟩ := finishRead_instance_list_inv cfg env list ids l h
    subst hll
    exact ⟨cs, ids, rfl, hset⟩

/-- Under non-nil `PayMode` and `InstanceId` the loop never crashes. -/
theorem processInstances_no_crash (env : Env) :
    ∀ (instances : List SqlserverInstance),
      (∀ v ∈ instances, v.PayMode.isSome ∧ v.InstanceId.isSome) →
      ∀ cs, processInstances env instances ≠ .crash cs := by
  intro instances
  induction instances with
  | nil => intro _ cs h; simp [processInstances] at h
  | cons v rest ih =>
    intro hpre cs h
    obtain ⟨hpm, hiid⟩ := hpre v (List.mem_cons_self v rest)
    obtain ⟨pm, hpm⟩ := Option.isSome_iff_exists.mp hpm
    obtain ⟨iid, hiid⟩ := Option.isSome_iff_exists.mp hiid
    simp only [processInstances, hpm, hiid] at h
    cases htag : env.tagResult iid with
    | error e => simp only [htag] at h; exact absurd h (by simp)
    | ok tagList =>
      simp only [htag] at h
      cases hrec : processInstances env rest with
      | ok cs0 l0 ids0 => simp only [hrec] at h; exact absurd h (by simp)
      | err cs0 e => simp only [hrec] at h; exact absurd h (by simp)
      | crash cs0 =>
        exact ih (fun w hw => hpre w (List.mem_cons_of_mem v hw)) cs0 hrec

/-- A tag call is never a write call. -/
theorem isTagCall_ne_writeFile (c : Call) (h : c.isTagCall = true) :
    ∀ p l, c ≠ Call.writeFile p l := by
  intro p l hc
  subst hc
  simp [Call.isTagCall] at h

/-- Every run's trace filters to exactly the one listing call. -/
theorem read_filter_listCall (cfg : ResourceConfig) (env : Env) :
    (dataSourceTencentCloudSqlserverBasicInstanceRead cfg env).calls.filter
      Call.isListCall = [listingCall cfg] := by
  obtain ⟨rest, hcalls, hrest⟩ := read_calls_decomp cfg env
  rw [hcalls]
  have h1 : Call.isListCall (listingCall cfg) = true := rfl
  rw [List.filter_cons_of_pos h1]
  have h2 : rest.filter Call.isListCall = [] := by
    rw [List.filter_eq_nil_iff]
    intro c hc
    rcases hrest c hc with h | h
    · cases c <;> simp_all [Call.isTagCall, Call.isListCall]
    · cases c <;> simp_all [Call.isWriteCall, Call.isListCall]
  rw [h2]

/-- C4: the listing call receives exactly the configured filter arguments:
the "id" argument as the instance-ID filter; the `GetOk` values of
"project_id", "vpc_id" and "subnet_id" when configured; and the defaults
`-1` (no project filter) and `""` when not configured (`Option.getD`
expresses exactly that case split). -/
theorem C4_listing_filter_args (cfg : ResourceConfig) (env : Env) :
    (dataSourceTencentCloudSqlserverBasicInstanceRead cfg env).calls.head? =
      some (Call.describeInstances cfg.id (cfg.project_id.getD (-1))
        (cfg.vpc_id.getD "") (cfg.subnet_id.getD "") 1) :=
  read_calls_head cfg env

/-- C6: every invocation calls the listing service exactly once, and that
call's instance-type argument is `1` (basic instances), whatever the
configured filters are. -/
theorem C6_instance_type_basic (cfg : ResourceConfig) (env : Env) :
    ((dataSourceTencentCloudSqlserverBasicInstanceRead cfg env).calls.filter
      Call.isListCall).map Call.instanceTypeArg = [some 1] := by
  rw [read_filter_listCall cfg env]
  rfl

/-- C7: the handler makes exactly one listing call and never retries: on a
listing error it returns that error at once, with no tag or write call made
and the state untouched. -/
theorem C7_list_once_no_retry (cfg : ResourceConfig) (env : Env) :
    ((dataSourceTencentCloudSqlserverBasicInstanceRead cfg env).calls.filter
      Call.isListCall).length = 1 ∧
    ∀ e, env.listResult = .error e →
      dataSourceTencentCloudSqlserverBasicInstanceRead cfg env =
        ⟨[listingCall cfg], ⟨none, none⟩, .err e⟩ := by
  constructor
  · rw [read_filter_listCall cfg env]; rfl
  · intro e he
    exact read_eq_of_listError cfg env e he

/-- C1: whenever the handler stored an output list for a listing result, it
has exactly one element per instance, in the same order, and each element's
id, name, project_id, storage, memory, availability_zone, create_time,
vpc_id, subnet_id, engine_version, vip, vport, used_storage, status and cpu
fields equal the instance's InstanceId, Name, ProjectId, Storage, Memory,
Zone, CreateTime, UniqVpcId, UniqSubnetId, Version, Vip, Vport, UsedStorage,
Status and Cpu. -/
theorem C1_flatten_one_per_instance (cfg : ResourceConfig) (env : Env)
    (instances : List SqlserverInstance) (l : List ListItem)
    (hl : env.listResult = .ok instances)
    (hout : (dataSourceTencentCloudSqlserverBasicInstanceRead cfg env).state.instance_list
      = some l) :
    l.length = instances.length ∧
    ∀ i (h : i < instances.length) (h1 : i < l.length),
      (l.get ⟨i, h1⟩).id = (instances.get ⟨i, h⟩).InstanceId ∧
      (l.get ⟨i, h1⟩).name = (instances.get ⟨i, h⟩).Name ∧
      (l.get ⟨i, h1⟩).project_id = (instances.get ⟨i, h⟩).ProjectId ∧
      (l.get ⟨i, h1⟩).storage = (instances.get ⟨i, h⟩).Storage ∧
      (l.get ⟨i, h1⟩).memory = (instances.get ⟨i, h⟩).Memory ∧
      (l.get ⟨i, h1⟩).availability_zone = (instances.get ⟨i, h⟩).Zone ∧
      (l.get ⟨i, h1⟩).create_time = (instances.get ⟨i, h⟩).CreateTime ∧
      (l.get ⟨i, h1⟩).vpc_id = (instances.get ⟨i, h⟩).UniqVpcId ∧
      (l.get ⟨i, h1⟩).subnet_id = (instances.get ⟨i, h⟩).UniqSubnetId ∧
      (l.get ⟨i, h1⟩).engine_version = (instances.get ⟨i, h⟩).Version ∧
      (l.get ⟨i, h1⟩).vip = (instances.get ⟨i, h⟩).Vip ∧
      (l.get ⟨i, h1⟩).vport = (instances.get ⟨i, h⟩).Vport ∧
      (l.get ⟨i, h1⟩).used_storage = (instances.get ⟨i, h⟩).UsedStorage ∧
      (l.get ⟨i, h1⟩).status = (instances.get ⟨i, h⟩).Status ∧
      (l.get ⟨i, h1⟩).cpu = (instances.get ⟨i, h⟩).Cpu := by
  obtain ⟨cs, ids, hok, -⟩ := read_instance_list_inv cfg env instances l hl hout
  obtain ⟨hlen, -, -, hpt⟩ := processInstances_ok_spec env instances cs l ids hok
  refine ⟨hlen, ?_⟩
  intro i h h1
  obtain ⟨h1x, h2x, pm, tagList, -, -, -, e4⟩ := hpt i h
  have hfin : (⟨i, h1⟩ : Fin l.length) = ⟨i, h1x⟩ := rfl
  rw [hfin, e4]
  exact ⟨rfl, rfl, rfl, rfl, rfl, rfl, rfl, rfl, rfl, rfl, rfl, rfl, rfl, rfl, rfl⟩

/-- A concrete instance with all pointers non-nil, used in witnesses. -/
def sampleInstance : SqlserverInstance :=
  { InstanceId := some "mssql-aaa", Name := some "one", ProjectId := some 0,
    Storage := some 20, Memory := some 4, Zone := some "ap-guangzhou-3",
    CreateTime := some "2020-07-01 00:00:00", UniqVpcId := some "vpc-1",
    UniqSubnetId := some "subnet-1", Version := some "2008R2",
    Vip := some "10.0.0.5", Vport := some 1433, UsedStorage := some 2,
    Status := some 2, Cpu := some 1, PayMode := some 0 }

/-- A concrete tag map used in witnesses. -/
def sampleTags : Tags := [("test", "test")]

/-- A concrete successful environment used in witnesses. -/
def sampleEnv : Env :=
  { listResult := .ok [sampleInstance]
    tagResult := fun _ => .ok sampleTags
    region := "ap-guangzhou"
    setError := none
    writeResult := .ok () }

/-- A concrete configuration with no optional argument set. -/
def sampleCfg : ResourceConfig :=
  { id := "", project_id := none, vpc_id := none, subnet_id := none,
    result_output_file := none }

/-- The item the handler builds for `sampleInstance`. -/
def sampleItem : ListItem := mkListItem sampleInstance 0 sampleTags

/-- Witness for C1: the one-instance run stores exactly one matching item. -/
theorem C1_witness :
    [sampleItem].length = [sampleInstance].length ∧
    ∀ i (h : i < [sampleInstance].length) (h1 : i < [sampleItem].length),
      ([sampleItem].get ⟨i, h1⟩).id = ([sampleInstance].get ⟨i, h⟩).InstanceId ∧
      ([sampleItem].get ⟨i, h1⟩).name = ([sampleInstance].get ⟨i, h⟩).Name ∧
      ([sampleItem].get ⟨i, h1⟩).project_id = ([sampleInstance].get ⟨i, h⟩).ProjectId ∧
      ([sampleItem].get ⟨i, h1⟩).storage = ([sampleInstance].get ⟨i, h⟩).Storage ∧
      ([sampleItem].get ⟨i, h1⟩).memory = ([sampleInstance].get ⟨i, h⟩).Memory ∧
      ([sampleItem].get ⟨i, h1⟩).availability_zone = ([sampleInstance].get ⟨i, h⟩).Zone ∧
      ([sampleItem].get ⟨i, h1⟩).create_time = ([sampleInstance].get ⟨i, h⟩).CreateTime ∧
      ([sampleItem].get ⟨i, h1⟩).vpc_id = ([sampleInstance].get ⟨i, h⟩).UniqVpcId ∧
      ([sampleItem].get ⟨i, h1⟩).subnet_id = ([sampleInstance].get ⟨i, h⟩).UniqSubnetId ∧
      ([sampleItem].get ⟨i, h1⟩).engine_version = ([sampleInstance].get ⟨i, h⟩).Version ∧
      ([sampleItem].get ⟨i, h1⟩).vip = ([sampleInstance].get ⟨i, h⟩).Vip ∧
      ([sampleItem].get ⟨i, h1⟩).vport = ([sampleInstance].get ⟨i, h⟩).Vport ∧
      ([sampleItem].get ⟨i, h1⟩).used_storage = ([sampleInstance].get ⟨i, h⟩).UsedStorage ∧
      ([sampleItem].get ⟨i, h1⟩).status = ([sampleInstance].get ⟨i, h⟩).Status ∧
      ([sampleItem].get ⟨i, h1⟩).cpu = ([sampleInstance].get ⟨i, h⟩).Cpu :=
  C1_flatten_one_per_instance sampleCfg sampleEnv [sampleInstance] [sampleItem] rfl rfl

/-- C9: in every stored output list, an element's charge_type is the prepaid
constant exactly when the instance's PayMode is 1, and the postpaid constant
in all other cases. -/
theorem C9_charge_type_paymode (cfg : ResourceConfig) (env : Env)
    (instances : List SqlserverInstance) (l : List ListItem)
    (hl : env.listResult = .ok instances)
    (hout : (dataSourceTencentCloudSqlserverBasicInstanceRead cfg env).state.instance_list
      = some l) :
    ∀ i (h : i < instances.length) (h1 : i < l.length),
      ((l.get ⟨i, h1⟩).charge_type = COMMON_PAYTYPE_PREPAID ↔
        (instances.get ⟨i, h⟩).PayMode = some 1) ∧
      ((instances.get ⟨i, h⟩).PayMode ≠ some 1 →
        (l.get ⟨i, h1⟩).charge_type = COMMON_PAYTYPE_POSTPAID) := by
  obtain ⟨cs, ids, hok, -⟩ := read_instance_list_inv cfg env instances l hl hout
  obtain ⟨-, -, -, hpt⟩ := processInstances_ok_spec env instances cs l ids hok
  intro i h h1
  obtain ⟨h1x, h2x, pm, tagList, -, e2, -, e4⟩ := hpt i h
  have hfin : (⟨i, h1⟩ : Fin l.length) = ⟨i, h1x⟩ := rfl
  rw [hfin, e4, e2]
  by_cases hpm : pm = 1
  · subst hpm
    constructor
    · simp [mkListItem]
    · intro hne
      exact absurd rfl hne
  · constructor
    · simp only [mkListItem, if_neg hpm]
      constructor
      · intro hc
        exact absurd hc (by decide)
      · intro hc
        exact absurd (Option.some.inj hc) hpm
    · intro _
      simp [mkListItem, if_neg hpm]

/-- Witness for C9 at the concrete run (PayMode 0, postpaid). -/
theorem C9_witness :
    (sampleItem.charge_type = COMMON_PAYTYPE_PREPAID ↔
      sampleInstance.PayMode = some 1) ∧
    (sampleInstance.PayMode ≠ some 1 →
      sampleItem.charge_type = COMMON_PAYTYPE_POSTPAID) :=
  C9_charge_type_paymode sampleCfg sampleEnv [sampleInstance] [sampleItem]
    rfl rfl 0 (by decide) (by decide)

/-- C10: when every listed instance has non-nil PayMode and InstanceId, the
flattening loop never dereferences a nil pointer: the crash outcome of the
total embedding is unreachable. -/
theorem C10_no_nil_deref (cfg : ResourceConfig) (env : Env)
    (instances : List SqlserverInstance)
    (hl : env.listResult = .ok instances)
    (hpre : ∀ v ∈ instances, v.PayMode.isSome ∧ v.InstanceId.isSome) :
    (dataSourceTencentCloudSqlserverBasicInstanceRead cfg env).ret ≠ GoResult.crash := by
  cases h2 : processInstances env instances with
  | crash cs => exact absurd h2 (processInstances_no_crash env instances hpre cs)
  | err cs e =>
    rw [read_eq_of_loopErr cfg env instances cs e hl h2]
    simp
  | ok cs list ids =>
    rw [read_eq_of_loopOk cfg env instances cs list ids hl h2]
    exact finishRead_ret_not_crash cfg env list ids

/-- Witness for C10 at the concrete all-non-nil run. -/
theorem C10_witness :
    (dataSourceTencentCloudSqlserverBasicInstanceRead sampleCfg sampleEnv).ret ≠
      GoResult.crash :=
  C10_no_nil_deref sampleCfg sampleEnv [sampleInstance] rfl (by decide)

/-- C8: when the handler returns an error that arose from the listing call
or from a tag call, the state is untouched — no resource ID, no
instance_list, and no file write. -/
theorem C8_atomic_on_error (cfg : ResourceConfig) (env : Env) (e : Err)
    (h : env.listResult = .error e ∨
      ∃ instances cs, env.listResult = .ok instances ∧
        processInstances env instances = .err cs e) :
    (dataSourceTencentCloudSqlserverBasicInstanceRead cfg env).state = ⟨none, none⟩ ∧
    (dataSourceTencentCloudSqlserverBasicInstanceRead cfg env).ret = .err e ∧
    ∀ p l, Call.writeFile p l ∉
      (dataSourceTencentCloudSqlserverBasicInstanceRead cfg env).calls := by
  rcases h with h | ⟨instances, cs, hl, h2⟩
  · rw [read_eq_of_listError cfg env e h]
    refine ⟨rfl, rfl, ?_⟩
    intro p l hc
    simp only [List.mem_singleton] at hc
    exact absurd hc.symm (by simp [listingCall])
  · rw [read_eq_of_loopErr cfg env instances cs e hl h2]
    refine ⟨rfl, rfl, ?_⟩
    intro p l hc
    simp only [List.mem_cons] at hc
    rcases hc with hc | hc
    · exact absurd hc.symm (by simp [listingCall])
    · have htag : (Call.writeFile p l).isTagCall = true := by
        have := processInstances_calls_tagOnly env instances (Call.writeFile p l)
        apply this
        rw [h2]
        exact hc
      simp [Call.isTagCall] at htag

/-- A failing listing environment used in the C8 witness. -/
def errEnv : Env :=
  { listResult := .error "boom"
    tagResult := fun _ => .ok []
    region := "ap-guangzhou"
    setError := none
    writeResult := .ok () }

/-- Witness for C8 at a concrete failing listing call. -/
theorem C8_witness :
    (dataSourceTencentCloudSqlserverBasicInstanceRead sampleCfg errEnv).state =
      ⟨none, none⟩ ∧
    (dataSourceTencentCloudSqlserverBasicInstanceRead sampleCfg errEnv).ret =
      .err "boom" ∧
    ∀ p l, Call.writeFile p l ∉
      (dataSourceTencentCloudSqlserverBasicInstanceRead sampleCfg errEnv).calls :=
  C8_atomic_on_error sampleCfg errEnv "boom" (Or.inl rfl)

/-- C3: the synthetic resource ID is a deterministic function of the
sequence of instance IDs: two runs whose listings return instances with
equal InstanceId sequences set the same ID. -/
theorem C3_deterministic_id (cfg1 cfg2 : ResourceConfig) (env1 env2 : Env)
    (is1 is2 : List SqlserverInstance) (r1 r2 : String)
    (h1 : env1.listResult = .ok is1) (h2 : env2.listResult = .ok is2)
    (hids : is1.map SqlserverInstance.InstanceId = is2.map SqlserverInstance.InstanceId)
    (hr1 : (dataSourceTencentCloudSqlserverBasicInstanceRead cfg1 env1).state.resourceId
      = some r1)
    (hr2 : (dataSourceTencentCloudSqlserverBasicInstanceRead cfg2 env2).state.resourceId
      = some r2) :
    r1 = r2 := by
  obtain ⟨ia, csa, la, idsa, hla, hoka, hra⟩ := read_resourceId_inv cfg1 env1 r1 hr1
  obtain ⟨ib, csb, lb, idsb, hlb, hokb, hrb⟩ := read_resourceId_inv cfg2 env2 r2 hr2
  have hia : ia = is1 := by
    have := hla.symm.trans h1
    exact Except.ok.inj this
  have hib : ib = is2 := by
    have := hlb.symm.trans h2
    exact Except.ok.inj this
  rw [← hia, ← hib] at hids
  obtain ⟨-, hlena, -, hpta⟩ := processInstances_ok_spec env1 ia csa la idsa hoka
  obtain ⟨-, hlenb, -, hptb⟩ := processInstances_ok_spec env2 ib csb lb idsb hokb
  have hlen12 : ia.length = ib.length := by
    have := congrArg List.length hids
    simpa using this
  have hidseq : idsa = idsb := by
    apply List.ext_get
    · rw [hlena, hlenb, hlen12]
    · intro n hn1 hn2
      have hni1 : n < ia.length := by rw [← hlena]; exact hn1
      have hni2 : n < ib.length := by rw [← hlenb]; exact hn2
      obtain ⟨-, hx2, -, -, ea, -, -, -⟩ := hpta n hni1
      obtain ⟨-, hy2, -, -, eb, -, -, -⟩ := hptb n hni2
      have hmap : (ia.get ⟨n, hni1⟩).InstanceId = (ib.get ⟨n, hni2⟩).InstanceId := by
        have hq := congrArg (fun t => t[n]?) hids
        simp only [List.getElem?_map, List.getElem?_eq_getElem hni1,
          List.getElem?_eq_getElem hni2, Option.map_some, Option.some.injEq] at hq
        simpa [List.get_eq_getElem] using hq
      have hsome : some (idsa.get ⟨n, hx2⟩) = some (idsb.get ⟨n, hy2⟩) := by
        rw [← ea, ← eb]
        exact hmap
      have hg := Option.some.inj hsome
      calc idsa.get ⟨n, hn1⟩ = idsa.get ⟨n, hx2⟩ := rfl
        _ = idsb.get ⟨n, hy2⟩ := hg
        _ = idsb.get ⟨n, hn2⟩ := rfl
  rw [hra, hrb, hidseq]

/-- A second instance: same InstanceId as `sampleInstance`, other fields
different. -/
def sampleInstance2 : SqlserverInstance :=
  { InstanceId := some "mssql-aaa", Name := some "two", ProjectId := some 7,
    Storage := some 100, Memory := some 8, Zone := some "eu-frankfurt-1",
    CreateTime := some "2021-01-01 00:00:00", UniqVpcId := some "vpc-9",
    UniqSubnetId := some "subnet-9", Version := some "2017",
    Vip := some "10.0.0.9", Vport := some 1433, UsedStorage := some 50,
    Status := some 2, Cpu := some 4, PayMode := some 1 }

/-- A second successful environment, differing from `sampleEnv` everywhere
except the listed InstanceId sequence. -/
def sampleEnv2 : Env :=
  { listResult := .ok [sampleInstance2]
    tagResult := fun _ => .ok [("env", "prod")]
    region := "eu-frankfurt"
    setError := none
    writeResult := .ok () }

/-- A configuration with every filter argument set. -/
def sampleCfg2 : ResourceConfig :=
  { id := "mssql-aaa", project_id := some 3, vpc_id := some "vpc-9",
    subnet_id := some "subnet-9", result_output_file := none }

/-- Witness for C3: two different runs over the same InstanceId sequence set
the same synthetic ID. -/
theorem C3_witness :
    DataResourceIdsHash ["mssql-aaa"] = DataResourceIdsHash ["mssql-aaa"] :=
  C3_deterministic_id sampleCfg sampleCfg2 sampleEnv sampleEnv2
    [sampleInstance] [sampleInstance2]
    (DataResourceIdsHash ["mssql-aaa"]) (DataResourceIdsHash ["mssql-aaa"])
    rfl rfl rfl rfl rfl

/-- C2: for every instance of a stored run, the handler made exactly one tag
call, in instance order, with service type "sqlserver", resource kind
"instance", the client's region and that instance's InstanceId, and stored
the returned tag map in that element's tags field; a failing tag call makes
the handler return that error. -/
theorem C2_tag_service_per_instance (cfg : ResourceConfig) (env : Env)
    (instances : List SqlserverInstance)
    (hl : env.listResult = .ok instances) :
    (∀ l, (dataSourceTencentCloudSqlserverBasicInstanceRead cfg env).state.instance_list
        = some l →
      (dataSourceTencentCloudSqlserverBasicInstanceRead cfg env).calls.filter
          Call.isTagCall =
        instances.map (fun v =>
          Call.describeTags "sqlserver" "instance" env.region (v.InstanceId.getD "")) ∧
      ∀ i (h : i < instances.length) (h1 : i < l.length),
        env.tagResult ((instances.get ⟨i, h⟩).InstanceId.getD "") =
          .ok (l.get ⟨i, h1⟩).tags) ∧
    (∀ cs e, processInstances env instances = .err cs e →
      (dataSourceTencentCloudSqlserverBasicInstanceRead cfg env).ret = .err e) := by
  constructor
  · intro l hout
    obtain ⟨cs, ids, hok, -⟩ := read_instance_list_inv cfg env instances l hl hout
    obtain ⟨hlen, hleni, hcs, hpt⟩ := processInstances_ok_spec env instances cs l ids hok
    have hneg : ¬ Call.isTagCall (listingCall cfg) = true := by
      simp [listingCall, Call.isTagCall]
    have hfilter : (dataSourceTencentCloudSqlserverBasicInstanceRead cfg env).calls.filter
        Call.isTagCall = cs := by
      rw [read_eq_of_loopOk cfg env instances cs l ids hl hok]
      show List.filter Call.isTagCall
        (listingCall cfg :: (cs ++ (finishRead cfg env l ids).calls)) = cs
      rw [List.filter_cons_of_neg hneg, List.filter_append]
      have hA : cs.filter Call.isTagCall = cs := by
        rw [List.filter_eq_self]
        intro c hc
        exact processInstances_calls_tagOnly env instances c (by rw [hok]; exact hc)
      have hB : (finishRead cfg env l ids).calls.filter Call.isTagCall = [] := by
        rw [List.filter_eq_nil_iff]
        intro c hc
        obtain ⟨p, hcw, -, -, -⟩ := finishRead_calls_inv cfg env l ids c hc
        subst hcw
        simp [Call.isTagCall]
      rw [hA, hB, List.append_nil]
    have hmapeq : ids.map
        (fun iid => Call.describeTags "sqlserver" "instance" env.region iid) =
        instances.map (fun v =>
          Call.describeTags "sqlserver" "instance" env.region (v.InstanceId.getD "")) := by
      apply List.ext_getElem
      · simp [hleni]
      · intro n hn1 hn2
        simp only [List.getElem_map]
        have hni : n < instances.length := by simpa using hn2
        obtain ⟨-, hx2, pm, t, e1, -, -, -⟩ := hpt n hni
        have he : instances[n].InstanceId = some ids[n] := by
          simpa [List.get_eq_getElem] using e1
        rw [he]
        rfl
    refine ⟨by rw [hfilter, hcs]; exact hmapeq, ?_⟩
    intro i h h1
    obtain ⟨h1x, h2x, pm, t, e1, -, e3, e4⟩ := hpt i h
    have hfin : (⟨i, h1⟩ : Fin l.length) = ⟨i, h1x⟩ := rfl
    rw [hfin, e4, e1]
    simpa using e3
  · intro cs e h2
    rw [read_eq_of_loopErr cfg env instances cs e hl h2]

/-- Witness for C2 at the concrete one-instance run. -/
theorem C2_witness :
    (∀ l, (dataSourceTencentCloudSqlserverBasicInstanceRead sampleCfg sampleEnv).state.instance_list
        = some l →
      (dataSourceTencentCloudSqlserverBasicInstanceRead sampleCfg sampleEnv).calls.filter
          Call.isTagCall =
        [sampleInstance].map (fun v =>
          Call.describeTags "sqlserver" "instance" sampleEnv.region (v.InstanceId.getD "")) ∧
      ∀ i (h : i < [sampleInstance].length) (h1 : i < l.length),
        sampleEnv.tagResult (([sampleInstance].get ⟨i, h⟩).InstanceId.getD "") =
          .ok (l.get ⟨i, h1⟩).tags) ∧
    (∀ cs e, processInstances sampleEnv [sampleInstance] = .err cs e →
      (dataSourceTencentCloudSqlserverBasicInstanceRead sampleCfg sampleEnv).ret = .err e) :=
  C2_tag_service_per_instance sampleCfg sampleEnv [sampleInstance] rfl

/-- C5: a file write happens exactly when "result_output_file" is configured
non-empty; what is written is the flattened instance list, and the handler
then returns the writer's result; with no (or an empty) configured file it
makes no write call and returns nil on success. -/
theorem C5_result_output_file (cfg : ResourceConfig) (env : Env) :
    (∀ p l, Call.writeFile p l ∈
        (dataSourceTencentCloudSqlserverBasicInstanceRead cfg env).calls →
      cfg.result_output_file = some p ∧ p ≠ "" ∧
      (dataSourceTencentCloudSqlserverBasicInstanceRead cfg env).state.instance_list
        = some l) ∧
    (∀ l, (dataSourceTencentCloudSqlserverBasicInstanceRead cfg env).state.instance_list
        = some l →
      (∀ p, cfg.result_output_file = some p → p ≠ "" →
        Call.writeFile p l ∈
          (dataSourceTencentCloudSqlserverBasicInstanceRead cfg env).calls ∧
        (dataSourceTencentCloudSqlserverBasicInstanceRead cfg env).ret = writerRet env) ∧
      ((cfg.result_output_file = none ∨ cfg.result_output_file = some "") →
        (∀ c ∈ (dataSourceTencentCloudSqlserverBasicInstanceRead cfg env).calls,
          c.isWriteCall = false) ∧
        (dataSourceTencentCloudSqlserverBasicInstanceRead cfg env).ret = .ok)) := by
  constructor
  · intro p l hc
    cases hlr : env.listResult with
    | error e =>
      rw [read_eq_of_listError cfg env e hlr] at hc
      simp only [List.mem_singleton] at hc
      exact absurd hc.symm (by simp [listingCall])
    | ok instances =>
      cases h2 : processInstances env instances with
      | err cs e =>
        rw [read_eq_of_loopErr cfg env instances cs e hlr h2] at hc
        simp only [List.mem_cons] at hc
        rcases hc with hc | hc
        · exact absurd hc.symm (by simp [listingCall])
        · have htg := processInstances_calls_tagOnly env instances _ (by rw [h2]; exact hc)
          simp [Call.isTagCall] at htg
      | crash cs =>
        rw [read_eq_of_loopCrash cfg env instances cs hlr h2] at hc
        simp only [List.mem_cons] at hc
        rcases hc with hc | hc
        · exact absurd hc.symm (by simp [listingCall])
        · have htg := processInstances_calls_tagOnly env instances _ (by rw [h2]; exact hc)
          simp [Call.isTagCall] at htg
      | ok cs list ids =>
        rw [read_eq_of_loopOk cfg env instances cs list ids hlr h2] at hc
        simp only [List.mem_cons, List.mem_append] at hc
        rcases hc with hc | hc | hc
        · exact absurd hc.symm (by simp [listingCall])
        · have htg := processInstances_calls_tagOnly env instances _ (by rw [h2]; exact hc)
          simp [Call.isTagCall] at htg
        · obtain ⟨p2, hcw, hof, hne, hset⟩ := finishRead_calls_inv cfg env list ids _ hc
          simp only [Call.writeFile.injEq] at hcw
          obtain ⟨hp, hl2⟩ := hcw
          subst hp
          subst hl2
          refine ⟨hof, hne, ?_⟩
          rw [read_eq_of_loopOk cfg env instances cs l ids hlr h2]
          exact finishRead_instance_list_of_setOk cfg env l ids hset
  · intro l hout
    cases hlr : env.listResult with
    | error e =>
      rw [read_eq_of_listError cfg env e hlr] at hout
      exact absurd hout (by simp)
    | ok instances =>
      obtain ⟨cs, ids, hok, hset⟩ := read_instance_list_inv cfg env instances l hlr hout
      constructor
      · intro p hp hne
        obtain ⟨hfc, hfr⟩ := finishRead_write cfg env l ids p hset hp hne
        rw [read_eq_of_loopOk cfg env instances cs l ids hlr hok]
        constructor
        · show Call.writeFile p l ∈ listingCall cfg :: (cs ++ (finishRead cfg env l ids).calls)
          rw [hfc]
          simp
        · show (finishRead cfg env l ids).ret = writerRet env
          exact hfr
      · intro hp
        obtain ⟨hfc, hfr⟩ := finishRead_nowrite cfg env l ids hset hp
        rw [read_eq_of_loopOk cfg env instances cs l ids hlr hok]
        constructor
        · intro c hcmem
          show c.isWriteCall = false
          have hcalls : listingCall cfg :: (cs ++ (finishRead cfg env l ids).calls) =
              listingCall cfg :: cs := by
            rw [hfc, List.append_nil]
          rw [hcalls] at hcmem
          simp only [List.mem_cons] at hcmem
          rcases hcmem with hcmem | hcmem
          · subst hcmem; rfl
          · have htg := processInstances_calls_tagOnly env instances c (by rw [hok]; exact hcmem)
            cases c <;> simp_all [Call.isTagCall, Call.isWriteCall]
        · show (finishRead cfg env l ids).ret = .ok
          exact hfr
